import Mathlib

/-!
Verification development for the rs2sky distributed-tracing core.

The definitions below are a shallow embedding of the repository's Rust
sources:
* `src/context/propagation.rs` — the propagation-header codec
  (`ContextDecoder::decode` and its helpers, plus the `PropagationContext`
  record);
* `src/context/trace_context.rs` — the `Span` / `TracingContext` lifecycle
  (`Span::new`, `Span::close`, `add_tag`, `add_log`,
  `TracingContext::default`, `from_propagation_context`,
  `create_entry_span`, `create_exit_span`, `finalize_span`,
  `convert_segment_object`);
* `src/reporter/grpc.rs` — the reporter queue/drain loop, modelled as a
  transition system over a FIFO channel.

Rust `String` / `&str` values are modelled as their UTF-8 byte sequences
(`List Nat`, each element a byte value).  The injected time source
(`TimeFetcher`) and the random id generator are capabilities: every value
they would produce inside a method is passed to the corresponding Lean
function as an explicit argument.  Machine integers are modelled as
`Int`/`Nat`; the `u32` parse performed by the decoder carries its explicit
`2 ^ 32` bound.
-/

namespace Rs2sky

/-- A Rust string / byte buffer, as its sequence of byte values. -/
abbrev Bytes := List Nat

/-! ## Base64 (standard alphabet, padded) — the `base64` crate as used by
`ContextDecoder::decode` and by the propagation encoder. -/

/-- Value 0–63 to standard-alphabet byte (`A`–`Z`, `a`–`z`, `0`–`9`, `+`, `/`). -/
def b64tbl (v : Nat) : Nat :=
  if v < 26 then v + 65
  else if v < 52 then v - 26 + 97
  else if v < 62 then v - 52 + 48
  else if v = 62 then 43
  else 47

/-- Alphabet byte back to its 6-bit value; `none` for a byte outside the
standard alphabet (including the pad byte `=`). -/
def b64val (c : Nat) : Option Nat :=
  if 65 ≤ c ∧ c ≤ 90 then some (c - 65)
  else if 97 ≤ c ∧ c ≤ 122 then some (c - 97 + 26)
  else if 48 ≤ c ∧ c ≤ 57 then some (c - 48 + 52)
  else if c = 43 then some 62
  else if c = 47 then some 63
  else none

/-- Standard padded base64 encoding of a byte sequence. -/
def b64encode : List Nat → List Nat
  | [] => []
  | [a] => [b64tbl (a / 4), b64tbl (a % 4 * 16), 61, 61]
  | [a, b] => [b64tbl (a / 4), b64tbl (a % 4 * 16 + b / 16), b64tbl (b % 16 * 4), 61]
  | a :: b :: c :: rest =>
    b64tbl (a / 4) :: b64tbl (a % 4 * 16 + b / 16) ::
      b64tbl (b % 16 * 4 + c / 64) :: b64tbl (c % 64) :: b64encode rest

/-- Standard padded base64 decoding; `none` on any malformed input
(wrong length, byte outside the alphabet, misplaced pad, non-zero
trailing bits). -/
def b64decode : List Nat → Option (List Nat)
  | [] => some []
  | [c1, c2, c3, c4] =>
    match b64val c1, b64val c2 with
    | some v1, some v2 =>
      if c3 = 61 then
        if c4 = 61 then
          if v2 % 16 = 0 then some [v1 * 4 + v2 / 16] else none
        else none
      else
        match b64val c3 with
        | some v3 =>
          if c4 = 61 then
            if v3 % 4 = 0 then some [v1 * 4 + v2 / 16, v2 % 16 * 16 + v3 / 4] else none
          else
            match b64val c4 with
            | some v4 => some [v1 * 4 + v2 / 16, v2 % 16 * 16 + v3 / 4, v3 % 4 * 64 + v4]
            | none => none
        | none => none
    | _, _ => none
  | c1 :: c2 :: c3 :: c4 :: rest =>
    match b64val c1, b64val c2, b64val c3, b64val c4 with
    | some v1, some v2, some v3, some v4 =>
      match b64decode rest with
      | some bs => some ((v1 * 4 + v2 / 16) :: (v2 % 16 * 16 + v3 / 4) :: (v3 % 4 * 64 + v4) :: bs)
      | none => none
    | _, _, _, _ => none
  | _ => none

theorem b64val_b64tbl (v : Nat) (h : v < 64) : b64val (b64tbl v) = some v := by
  have : ∀ w : Fin 64, b64val (b64tbl w.val) = some w.val := by decide
  exact this ⟨v, h⟩

theorem b64tbl_ne_eq (v : Nat) : b64tbl v ≠ 61 := by
  unfold b64tbl
  split_ifs <;> omega

theorem b64tbl_ne_dash (v : Nat) : b64tbl v ≠ 45 := by
  unfold b64tbl
  split_ifs <;> omega

/-- Induction along the 3-byte chunking that `b64encode` uses. -/
theorem chunk3Induction {P : List Nat → Prop} (h0 : P []) (h1 : ∀ a, P [a])
    (h2 : ∀ a b, P [a, b]) (h3 : ∀ a b c rest, P rest → P (a :: b :: c :: rest)) :
    ∀ l, P l
  | [] => h0
  | [a] => h1 a
  | [a, b] => h2 a b
  | a :: b :: c :: rest => h3 a b c rest (chunk3Induction h0 h1 h2 h3 rest)

theorem b64encode_no_dash (l : List Nat) : 45 ∉ b64encode l := by
  induction l using chunk3Induction with
  | h0 => simp [b64encode]
  | h1 a => simp [b64encode, (b64tbl_ne_dash _).symm]
  | h2 a b => simp [b64encode, (b64tbl_ne_dash _).symm]
  | h3 a b c rest ih =>
    simp only [b64encode, List.mem_cons]
    push_neg
    exact ⟨(b64tbl_ne_dash _).symm, (b64tbl_ne_dash _).symm,
      (b64tbl_ne_dash _).symm, (b64tbl_ne_dash _).symm, ih⟩

theorem b64encode_shape (l : List Nat) (h : l ≠ []) :
    ∃ d1 d2 d3 d4 t, b64encode l = d1 :: d2 :: d3 :: d4 :: t := by
  match l with
  | [] => exact absurd rfl h
  | [a] => exact ⟨_, _, _, _, _, rfl⟩
  | [a, b] => exact ⟨_, _, _, _, _, rfl⟩
  | a :: b :: c :: rest => exact ⟨_, _, _, _, _, rfl⟩

theorem b64_roundtrip (l : List Nat) (hb : ∀ b ∈ l, b < 256) :
    b64decode (b64encode l) = some l := by
  induction l using chunk3Induction with
  | h0 => rfl
  | h1 a =>
    have ha : a < 256 := hb a (by simp)
    have e1 : b64val (b64tbl (a / 4)) = some (a / 4) := b64val_b64tbl _ (by omega)
    have e2 : b64val (b64tbl (a % 4 * 16)) = some (a % 4 * 16) := b64val_b64tbl _ (by omega)
    simp only [b64encode, b64decode, e1, e2]
    have hmod : a % 4 * 16 % 16 = 0 := by omega
    simp [hmod]
    omega
  | h2 a b =>
    have ha : a < 256 := hb a (by simp)
    have hbb : b < 256 := hb b (by simp)
    have e1 : b64val (b64tbl (a / 4)) = some (a / 4) := b64val_b64tbl _ (by omega)
    have e2 : b64val (b64tbl (a % 4 * 16 + b / 16)) = some (a % 4 * 16 + b / 16) :=
      b64val_b64tbl _ (by omega)
    have e3 : b64val (b64tbl (b % 16 * 4)) = some (b % 16 * 4) := b64val_b64tbl _ (by omega)
    simp only [b64encode, b64decode, e1, e2, if_neg (b64tbl_ne_eq (b % 16 * 4)), e3]
    have hmod : b % 16 * 4 % 4 = 0 := by omega
    simp [hmod]
    omega
  | h3 a b c rest ih =>
    have ha : a < 256 := hb a (by simp)
    have hbb : b < 256 := hb b (by simp)
    have hc : c < 256 := hb c (by simp)
    have e1 : b64val (b64tbl (a / 4)) = some (a / 4) := b64val_b64tbl _ (by omega)
    have e2 : b64val (b64tbl (a % 4 * 16 + b / 16)) = some (a % 4 * 16 + b / 16) :=
      b64val_b64tbl _ (by omega)
    have e3 : b64val (b64tbl (b % 16 * 4 + c / 64)) = some (b % 16 * 4 + c / 64) :=
      b64val_b64tbl _ (by omega)
    have e4 : b64val (b64tbl (c % 64)) = some (c % 64) := b64val_b64tbl _ (by omega)
    have hv1 : a / 4 * 4 + (a % 4 * 16 + b / 16) / 16 = a := by omega
    have hv2 : (a % 4 * 16 + b / 16) % 16 * 16 + (b % 16 * 4 + c / 64) / 4 = b := by omega
    have hv3 : (b % 16 * 4 + c / 64) % 4 * 64 + c % 64 = c := by omega
    have ih' := ih (fun x hx => hb x (by simp [hx]))
    by_cases hrest : rest = []
    · subst hrest
      simp only [b64encode, b64decode, e1, e2, if_neg (b64tbl_ne_eq (b % 16 * 4 + c / 64)),
        e3, if_neg (b64tbl_ne_eq (c % 64)), e4]
      simp
      omega
    · obtain ⟨d1, d2, d3, d4, t, hshape⟩ := b64encode_shape rest hrest
      simp only [b64encode, hshape]
      rw [hshape] at ih'
      simp only [b64decode, e1, e2, e3, e4, ih']
      simp
      omega

/-! ## Splitting on the dash delimiter — Rust's `str::split('-')`
(`'-'` is byte 45; splitting a valid UTF-8 byte sequence on byte 45 agrees
with splitting the string on the character, since 45 never occurs inside a
multi-byte UTF-8 sequence). -/

/-- Helper for `splitDash`: current field under construction plus the
remaining fields. -/
def splitDashAux : List Nat → List Nat × List (List Nat)
  | [] => ([], [])
  | b :: rest =>
    let p := splitDashAux rest
    if b = 45 then ([], p.1 :: p.2) else (b :: p.1, p.2)

/-- Rust `header.split('-').collect()`: always at least one field; adjacent
or trailing dashes yield empty fields. -/
def splitDash (l : List Nat) : List (List Nat) :=
  (splitDashAux l).1 :: (splitDashAux l).2

theorem splitDashAux_no_dash (f : List Nat) (h : 45 ∉ f) : splitDashAux f = (f, []) := by
  induction f with
  | nil => rfl
  | cons x xs ih =>
    have hx : x ≠ 45 := fun hc => h (by simp [hc])
    have hxs : 45 ∉ xs := fun hc => h (by simp [hc])
    simp [splitDashAux, ih hxs, hx]

theorem splitDashAux_append (f rest : List Nat) (h : 45 ∉ f) :
    splitDashAux (f ++ 45 :: rest) = (f, (splitDashAux rest).1 :: (splitDashAux rest).2) := by
  induction f with
  | nil => simp [splitDashAux]
  | cons x xs ih =>
    have hx : x ≠ 45 := fun hc => h (by simp [hc])
    have hxs : 45 ∉ xs := fun hc => h (by simp [hc])
    simp [splitDashAux, ih hxs, hx]

theorem splitDash_append (f rest : List Nat) (h : 45 ∉ f) :
    splitDash (f ++ 45 :: rest) = f :: splitDash rest := by
  simp [splitDash, splitDashAux_append f rest h]

theorem splitDash_no_dash (f : List Nat) (h : 45 ∉ f) : splitDash f = [f] := by
  simp [splitDash, splitDashAux_no_dash f h]

/-! ## Decimal parsing and printing — Rust's `str::parse::<u32>()` and the
decimal rendering used by the propagation encoder. -/

/-- Little-endian decimal digit bytes of `n` (empty for 0). -/
def decRev : Nat → List Nat
  | 0 => []
  | n + 1 => ((n + 1) % 10 + 48) :: decRev ((n + 1) / 10)
decreasing_by exact Nat.div_lt_self (Nat.succ_pos n) (by omega)

/-- Decimal rendering of a natural number, most-significant digit first
(Rust's `format!` / `Display` for unsigned integers). -/
def natToDec (n : Nat) : List Nat :=
  if n = 0 then [48] else (decRev n).reverse

/-- Value of a most-significant-first digit-byte list. -/
def digitsVal (l : List Nat) : Nat :=
  l.foldl (fun acc d => acc * 10 + (d - 48)) 0

/-- Parse an unsigned decimal numeral (no sign, at least one digit,
arbitrary precision). -/
def parseDigits (l : List Nat) : Option Nat :=
  if l ≠ [] ∧ ∀ d ∈ l, 48 ≤ d ∧ d ≤ 57 then some (digitsVal l) else none

/-- Strip the optional leading `+` sign accepted by Rust's unsigned
integer parse (`-` is rejected for unsigned types). -/
def stripPlus (s : List Nat) : List Nat :=
  match s with
  | 43 :: t => t
  | _ => s

/-- Rust `str::parse::<u32>()`: optional `+`, one or more decimal digits,
failing when the value does not fit in 32 bits. -/
def parseU32 (s : List Nat) : Option Nat :=
  match parseDigits (stripPlus s) with
  | some v => if v < 4294967296 then some v else none
  | none => none

theorem decRev_digits (n : Nat) : ∀ d ∈ decRev n, 48 ≤ d ∧ d ≤ 57 := by
  induction n using Nat.strong_induction_on with
  | _ n ih =>
    match n with
    | 0 => simp [decRev]
    | m + 1 =>
      intro d hd
      rw [decRev] at hd
      rcases List.mem_cons.mp hd with h | h
      · omega
      · exact ih ((m + 1) / 10) (Nat.div_lt_self (Nat.succ_pos m) (by omega)) d h

theorem decRev_ne_nil (n : Nat) (h : 0 < n) : decRev n ≠ [] := by
  match n with
  | m + 1 => rw [decRev]; simp

theorem foldl_decRev (n : Nat) : ∀ a : Nat,
    ((decRev n).reverse).foldl (fun acc d => acc * 10 + (d - 48)) a =
      a * 10 ^ (decRev n).length + n := by
  induction n using Nat.strong_induction_on with
  | _ n ih =>
    match n with
    | 0 => simp [decRev]
    | m + 1 =>
      intro a
      rw [decRev]
      simp only [List.reverse_cons, List.foldl_append, List.foldl_cons, List.foldl_nil,
        List.length_cons]
      rw [ih ((m + 1) / 10) (Nat.div_lt_self (Nat.succ_pos m) (by omega)) a]
      rw [pow_succ, ← mul_assoc]
      have harith : (m + 1) % 10 + 48 - 48 = (m + 1) % 10 := by omega
      rw [harith]
      set k := a * 10 ^ (decRev ((m + 1) / 10)).length
      omega

theorem digitsVal_natToDec (n : Nat) : digitsVal (natToDec n) = n := by
  by_cases h : n = 0
  · subst h; rfl
  · unfold natToDec digitsVal
    rw [if_neg h, foldl_decRev n 0]
    simp

theorem natToDec_digits (n : Nat) : ∀ d ∈ natToDec n, 48 ≤ d ∧ d ≤ 57 := by
  unfold natToDec
  by_cases h : n = 0
  · simp [h]
  · rw [if_neg h]
    intro d hd
    exact decRev_digits n d (List.mem_reverse.mp hd)

theorem natToDec_ne_nil (n : Nat) : natToDec n ≠ [] := by
  unfold natToDec
  by_cases h : n = 0
  · simp [h]
  · rw [if_neg h]
    simp [decRev_ne_nil n (by omega)]

theorem natToDec_no_dash (n : Nat) : 45 ∉ natToDec n := by
  intro hc
  have := natToDec_digits n 45 hc
  omega

theorem stripPlus_of_head_ne (d : Nat) (t : List Nat) (h : d ≠ 43) :
    stripPlus (d :: t) = d :: t := by
  unfold stripPlus
  split
  · rename_i heq
    injection heq with h1 h2
    omega
  · rfl

theorem parseU32_natToDec (n : Nat) (h : n < 4294967296) :
    parseU32 (natToDec n) = some n := by
  have hstrip : stripPlus (natToDec n) = natToDec n := by
    match hm : natToDec n with
    | [] => rfl
    | d :: t =>
      have hd : 48 ≤ d ∧ d ≤ 57 := natToDec_digits n d (by rw [hm]; simp)
      exact stripPlus_of_head_ne d t (by omega)
  unfold parseU32
  rw [hstrip]
  unfold parseDigits
  rw [if_pos ⟨natToDec_ne_nil n, natToDec_digits n⟩, digitsVal_natToDec n]
  simp [h]

/-! ## UTF-8 validity — the check performed by Rust's `String::from_utf8`. -/

/-- UTF-8 validity of a byte sequence (the exact byte-range table used by
Rust's standard library: ASCII, 2-byte C2–DF, 3-byte E0/E1–EC/ED/EE–EF with
their continuation ranges excluding surrogates and overlongs, 4-byte
F0/F1–F3/F4 capped at U+10FFFF). -/
def isValidUtf8 : List Nat → Bool
  | [] => true
  | b :: rest =>
    if b < 128 then isValidUtf8 rest
    else if 194 ≤ b ∧ b ≤ 223 then
      match rest with
      | c1 :: rest2 => if 128 ≤ c1 ∧ c1 ≤ 191 then isValidUtf8 rest2 else false
      | [] => false
    else if b = 224 then
      match rest with
      | c1 :: c2 :: rest2 =>
        if (160 ≤ c1 ∧ c1 ≤ 191) ∧ (128 ≤ c2 ∧ c2 ≤ 191) then isValidUtf8 rest2 else false
      | _ => false
    else if (225 ≤ b ∧ b ≤ 236) ∨ (238 ≤ b ∧ b ≤ 239) then
      match rest with
      | c1 :: c2 :: rest2 =>
        if (128 ≤ c1 ∧ c1 ≤ 191) ∧ (128 ≤ c2 ∧ c2 ≤ 191) then isValidUtf8 rest2 else false
      | _ => false
    else if b = 237 then
      match rest with
      | c1 :: c2 :: rest2 =>
        if (128 ≤ c1 ∧ c1 ≤ 159) ∧ (128 ≤ c2 ∧ c2 ≤ 191) then isValidUtf8 rest2 else false
      | _ => false
    else if b = 240 then
      match rest with
      | c1 :: c2 :: c3 :: rest2 =>
        if (144 ≤ c1 ∧ c1 ≤ 191) ∧ (128 ≤ c2 ∧ c2 ≤ 191) ∧ (128 ≤ c3 ∧ c3 ≤ 191) then
          isValidUtf8 rest2 else false
      | _ => false
    else if 241 ≤ b ∧ b ≤ 243 then
      match rest with
      | c1 :: c2 :: c3 :: rest2 =>
        if (128 ≤ c1 ∧ c1 ≤ 191) ∧ (128 ≤ c2 ∧ c2 ≤ 191) ∧ (128 ≤ c3 ∧ c3 ≤ 191) then
          isValidUtf8 rest2 else false
      | _ => false
    else if b = 244 then
      match rest with
      | c1 :: c2 :: c3 :: rest2 =>
        if (128 ≤ c1 ∧ c1 ≤ 143) ∧ (128 ≤ c2 ∧ c2 ≤ 191) ∧ (128 ≤ c3 ∧ c3 ≤ 191) then
          isValidUtf8 rest2 else false
      | _ => false
    else false

/-- A Rust `String` value in the byte model: every element is a byte and
the sequence is valid UTF-8. -/
def ByteText (l : List Nat) : Prop :=
  (∀ b ∈ l, b < 256) ∧ isValidUtf8 l = true

instance (l : List Nat) : Decidable (ByteText l) := by
  unfold ByteText
  infer_instance

/-! ## PropagationContext and the header decoder
(`src/context/propagation.rs`). -/

/-- Decoded form of an inbound propagation header
(`PropagationContext` in `src/context/propagation.rs`). -/
structure PropagationContext where
  do_sample : Bool
  parent_trace_id : Bytes
  parent_trace_segment_id : Bytes
  parent_span_id : Nat
  parent_service : Bytes
  parent_service_instance : Bytes
  destination_endpoint : Bytes
  destination_address : Bytes
deriving DecidableEq, Repr

/-- Marker for a returned `Err` value (`Result::is_err`). -/
def isErrE {α : Type} (r : Except String α) : Bool :=
  match r with
  | .error _ => true
  | .ok _ => false

/-- `ContextDecoder::b64_encoded_into_string`: base64-decode, then require
the bytes to be valid UTF-8 (`String::from_utf8`). -/
def b64_encoded_into_string (enc : Bytes) : Except String Bytes :=
  match b64decode enc with
  | some bytes => if isValidUtf8 bytes then .ok bytes else .error "failed to decode value."
  | none => .error "failed to decode value."

/-- `ContextDecoder::try_parse_sample_status`: the field must be exactly
`"0"` (byte 48) or `"1"` (byte 49). -/
def try_parse_sample_status (status : Bytes) : Except String Bool :=
  if status = [48] then .ok false
  else if status = [49] then .ok true
  else .error "failed to parse sample status."

/-- `ContextDecoder::try_parse_parent_span_id`: `id.parse::<u32>()`. -/
def try_parse_parent_span_id (id : Bytes) : Except String Nat :=
  match parseU32 id with
  | some r => .ok r
  | none => .error "failed to parse span id from parent."

/-- Field-by-field validation step of `ContextDecoder::decode`, in the
source's order: sample flag, trace id, segment id, span id, service,
service instance, destination endpoint, destination address. -/
def decodeFields (p0 p1 p2 p3 p4 p5 p6 p7 : Bytes) : Except String PropagationContext :=
    match try_parse_sample_status p0 with
    | .error e => .error e
    | .ok do_sample =>
      match b64_encoded_into_string p1 with
      | .error e => .error e
      | .ok parent_trace_id =>
        match b64_encoded_into_string p2 with
        | .error e => .error e
        | .ok parent_trace_segment_id =>
          match try_parse_parent_span_id p3 with
          | .error e => .error e
          | .ok parent_span_id =>
            match b64_encoded_into_string p4 with
            | .error e => .error e
            | .ok parent_service =>
              match b64_encoded_into_string p5 with
              | .error e => .error e
              | .ok parent_service_instance =>
                match b64_encoded_into_string p6 with
                | .error e => .error e
                | .ok destination_endpoint =>
                  match b64_encoded_into_string p7 with
                  | .error e => .error e
                  | .ok destination_address =>
                    .ok ⟨do_sample, parent_trace_id, parent_trace_segment_id,
                      parent_span_id, parent_service, parent_service_instance,
                      destination_endpoint, destination_address⟩

/-- `ContextDecoder::decode`: split on `'-'`, require exactly 8 fields,
then validate field by field. -/
def decode (header : Bytes) : Except String PropagationContext :=
  match splitDash header with
  | [p0, p1, p2, p3, p4, p5, p6, p7] => decodeFields p0 p1 p2 p3 p4 p5 p6 p7
  | _ => .error "failed to parse propagation context: it must have 8 properties."

/-- Modelled from the spec: the propagation encoder
(`context::propagation::encoder::encode_propagation`) is referenced by the
repository's tests and e2e example but its source file is not among the
sources; section 4.3 of the specification defines it as the 8-field,
`'-'`-separated string: sample flag (`"1"` if sampled else `"0"`),
base64(trace_id), base64(segment_id), parent span id in decimal,
base64(service), base64(service_instance), base64(destination_endpoint),
base64(destination_address).  This definition takes the logical field
values directly. -/
def encode_propagation (sampled : Bool) (trace_id segment_id : Bytes) (span_id : Nat)
    (service service_instance destination_endpoint destination_address : Bytes) : Bytes :=
  (if sampled then [49] else [48]) ++ 45 ::
    (b64encode trace_id ++ 45 ::
      (b64encode segment_id ++ 45 ::
        (natToDec span_id ++ 45 ::
          (b64encode service ++ 45 ::
            (b64encode service_instance ++ 45 ::
              (b64encode destination_endpoint ++ 45 :: b64encode destination_address))))))

/-! ## Claim-side failure predicates for the decoder, following the
wording of the specification (section 4.3 / section 8). -/

/-- A field is "valid base64 whose decoded bytes are valid UTF-8 text". -/
def b64TextOk (p : Bytes) : Bool :=
  match b64decode p with
  | some bs => isValidUtf8 bs
  | none => false

/-- A field "parses as a non-negative integer" in the literal,
width-unbounded sense: an optional `+` sign followed by one or more
decimal digits. -/
def parsesAsNonNegInt (p : Bytes) : Bool :=
  (parseDigits (stripPlus p)).isSome

/-- The claim's failure condition for `decode`, read literally: not exactly
8 dash-separated fields, or field 0 outside {"0","1"}, or field 3 not a
non-negative integer numeral (any magnitude), or one of fields 1, 2, 4, 5,
6, 7 not base64-encoded UTF-8 text. -/
def claim2FailCondLiteral (header : Bytes) : Bool :=
  match splitDash header with
  | [p0, p1, p2, p3, p4, p5, p6, p7] =>
    !(p0 == [48] || p0 == [49]) || !parsesAsNonNegInt p3 ||
      !(b64TextOk p1 && b64TextOk p2 && b64TextOk p4 && b64TextOk p5 &&
        b64TextOk p6 && b64TextOk p7)
  | _ => true

/-- Fields-level form of the amended failure condition. -/
def claim2FieldsFail (p0 p1 p2 p3 p4 p5 p6 p7 : Bytes) : Bool :=
  !(p0 == [48] || p0 == [49]) || !(parseU32 p3).isSome ||
    !(b64TextOk p1 && b64TextOk p2 && b64TextOk p4 && b64TextOk p5 &&
      b64TextOk p6 && b64TextOk p7)

/-- The amended failure condition: as the claim states it, except that
field 3 must parse as a non-negative integer that fits in 32 bits
(the source parses it with `str::parse::<u32>()`). -/
def claim2FailCondAmended (header : Bytes) : Bool :=
  match splitDash header with
  | [p0, p1, p2, p3, p4, p5, p6, p7] => claim2FieldsFail p0 p1 p2 p3 p4 p5 p6 p7
  | _ => true

/-! ## Span and TracingContext (`src/context/trace_context.rs`).
The protobuf enums are kept as the integers the source stores
(`SpanType::Entry = 0`, `SpanType::Exit = 1`, `SpanLayer::Http = 3`,
`RefType::CrossProcess = 0`). -/

def spanTypeEntry : Int := 0
def spanTypeExit : Int := 1
def spanLayerHttp : Int := 3
def refTypeCrossProcess : Int := 0

/-- `KeyStringValuePair` from the segment protobuf. -/
structure KeyStringValuePair where
  key : Bytes
  value : Bytes
deriving DecidableEq, Repr

/-- `Log` from the segment protobuf: a timestamped tag set. -/
structure LogEntry where
  time : Int
  data : List KeyStringValuePair
deriving DecidableEq, Repr

/-- `SegmentReference` from the segment protobuf. -/
structure SegmentReference where
  ref_type : Int
  trace_id : Bytes
  parent_trace_segment_id : Bytes
  parent_span_id : Nat
  parent_service : Bytes
  parent_service_instance : Bytes
  parent_endpoint : Bytes
  network_address_used_at_peer : Bytes
deriving DecidableEq, Repr

/-- `SpanObject` from the segment protobuf, field for field. -/
structure SpanObject where
  span_id : Int
  parent_span_id : Int
  start_time : Int
  end_time : Int
  refs : List SegmentReference
  operation_name : Bytes
  peer : Bytes
  span_type : Int
  span_layer : Int
  component_id : Int
  is_error : Bool
  tags : List KeyStringValuePair
  logs : List LogEntry
  skip_analysis : Bool
deriving DecidableEq, Repr

/-- `Span`: the `SpanObject` under construction (the `time_fetcher`
capability of the Rust struct is passed to each operation explicitly). -/
structure Span where
  span_internal : SpanObject
deriving DecidableEq, Repr

/-- `Span::new`: `span_id = parent_span_id + 1`, `end_time = 0` (not set),
`start_time` fetched from the time source, fixed `component_id = 11000`. -/
def Span.new (parent_span_id : Int) (operation_name remote_peer : Bytes)
    (span_type span_layer : Int) (skip_analysis : Bool) (now : Int) : Span :=
  ⟨{ span_id := parent_span_id + 1
     parent_span_id := parent_span_id
     start_time := now
     end_time := 0
     refs := []
     operation_name := operation_name
     peer := remote_peer
     span_type := span_type
     span_layer := span_layer
     component_id := 11000
     is_error := false
     tags := []
     logs := []
     skip_analysis := skip_analysis }⟩

/-- `Span::close`: record `end_time` from the time source. -/
def Span.close (s : Span) (now : Int) : Span :=
  ⟨{ s.span_internal with end_time := now }⟩

/-- `Span::span_object`. -/
def Span.span_object (s : Span) : SpanObject :=
  s.span_internal

/-- `Span::add_log`: append one timestamped tag set. -/
def Span.add_log (s : Span) (message : List (Bytes × Bytes)) (now : Int) : Span :=
  ⟨{ s.span_internal with
      logs := s.span_internal.logs ++
        [⟨now, message.map (fun v => ⟨v.1, v.2⟩)⟩] }⟩

/-- `Span::add_tag`: append one key/value pair. -/
def Span.add_tag (s : Span) (tag : Bytes × Bytes) : Span :=
  ⟨{ s.span_internal with tags := s.span_internal.tags ++ [⟨tag.1, tag.2⟩] }⟩

/-- `Span::add_segment_reference`. -/
def Span.add_segment_reference (s : Span) (segment_reference : SegmentReference) : Span :=
  ⟨{ s.span_internal with refs := s.span_internal.refs ++ [segment_reference] }⟩

/-- `TracingContext`: the `time_fetcher` capability is passed to each
operation explicitly, all other fields follow the Rust struct. -/
structure TracingContext where
  trace_id : Bytes
  trace_segment_id : Bytes
  service : Bytes
  service_instance : Bytes
  next_span_id : Int
  spans : List Span
  segment_link : Option PropagationContext
deriving DecidableEq, Repr

namespace TracingContext

/-- `TracingContext::default`: the two `RandomGenerator::generate()`
results are passed as `generated_trace_id` / `generated_segment_id`. -/
def default (generated_trace_id generated_segment_id : Bytes)
    (service_name instance_name : Bytes) : TracingContext :=
  { trace_id := generated_trace_id
    trace_segment_id := generated_segment_id
    service := service_name
    service_instance := instance_name
    next_span_id := 0
    spans := []
    segment_link := none }

/-- `TracingContext::from_propagation_context`: trace id copied from the
propagated context, segment id freshly generated (passed in), service and
instance inherited from the parent identity, the context stored as the
segment link. -/
def from_propagation_context (generated_segment_id : Bytes)
    (context : PropagationContext) : TracingContext :=
  { trace_id := context.parent_trace_id
    trace_segment_id := generated_segment_id
    service := context.parent_service
    service_instance := context.parent_service_instance
    next_span_id := 0
    spans := []
    segment_link := some context }

/-- `TracingContext::create_entry_span`.  The Rust method mutates
`&mut self`; here it returns the result together with the context after
the call. -/
def create_entry_span (ctx : TracingContext) (operation_name : Bytes) (now : Int) :
    Except String Span × TracingContext :=
  if 1 ≤ ctx.next_span_id then
    (.error "entry span have already exist.", ctx)
  else
    let span := Span.new ctx.next_span_id operation_name [] spanTypeEntry spanLayerHttp
      false now
    let span := match ctx.segment_link with
      | some link =>
        span.add_segment_reference
          { ref_type := refTypeCrossProcess
            trace_id := ctx.trace_id
            parent_trace_segment_id := link.parent_trace_segment_id
            parent_span_id := link.parent_span_id
            parent_service := link.parent_service
            parent_service_instance := link.parent_service_instance
            parent_endpoint := link.destination_endpoint
            network_address_used_at_peer := link.destination_address }
      | none => span
    (.ok span, { ctx with next_span_id := ctx.next_span_id + 1 })

/-- `TracingContext::create_exit_span`. -/
def create_exit_span (ctx : TracingContext) (operation_name remote_peer : Bytes)
    (now : Int) : Except String Span × TracingContext :=
  if ctx.next_span_id = 0 then
    (.error "entry span must be existed.", ctx)
  else
    (.ok (Span.new ctx.next_span_id operation_name remote_peer spanTypeExit spanLayerHttp
      false now),
     { ctx with next_span_id := ctx.next_span_id + 1 })

/-- `TracingContext::finalize_span`: close the span (recording `end_time`
from the time source) and move it into the finalized list. -/
def finalize_span (ctx : TracingContext) (span : Span) (now : Int) : TracingContext :=
  { ctx with spans := ctx.spans ++ [span.close now] }

/-- `TracingContext::finalize_span_for_test`: closes the span in place via
`&mut Box<Span>` without consuming it — the caller keeps the (now closed)
span and the context is untouched. -/
def finalize_span_for_test (ctx : TracingContext) (span : Span) (now : Int) : Span :=
  span.close now

end TracingContext

/-- `SegmentObject` from the segment protobuf. -/
structure SegmentObject where
  trace_id : Bytes
  trace_segment_id : Bytes
  spans : List SpanObject
  service : Bytes
  service_instance : Bytes
  is_size_limited : Bool
deriving DecidableEq, Repr

/-- `TracingContext::convert_segment_object`: the transport-ready segment
built from the context's identity fields and the finalized spans, with the
size-limited flag hard-coded to `false`. -/
def TracingContext.convert_segment_object (ctx : TracingContext) : SegmentObject :=
  { trace_id := ctx.trace_id
    trace_segment_id := ctx.trace_segment_id
    spans := ctx.spans.map Span.span_internal
    service := ctx.service
    service_instance := ctx.service_instance
    is_size_limited := false }

/-! ## Creation sequences — the span id counter over any interleaving of
entry/exit creations. -/

/-- One span-creation request with the values its call would fetch. -/
inductive CreateOp where
  | entrySpan (operation_name : Bytes) (now : Int)
  | exitSpan (operation_name remote_peer : Bytes) (now : Int)
deriving DecidableEq, Repr

/-- Run a sequence of creation requests against a context, collecting the
span objects of the successful creations in order (a failed creation
leaves the context as it was, as in the source's early `return Err`). -/
def runCreates (ctx : TracingContext) : List CreateOp → TracingContext × List SpanObject
  | [] => (ctx, [])
  | op :: rest =>
    let step : List SpanObject × TracingContext :=
      match op with
      | .entrySpan name now =>
        match ctx.create_entry_span name now with
        | (.ok sp, c) => ([sp.span_internal], c)
        | (.error _, c) => ([], c)
      | .exitSpan name peer now =>
        match ctx.create_exit_span name peer now with
        | (.ok sp, c) => ([sp.span_internal], c)
        | (.error _, c) => ([], c)
    let tail := runCreates step.2 rest
    (tail.1, step.1 ++ tail.2)

/-- The consecutive integers `start, start + 1, …, start + n - 1`. -/
def consecutiveFrom (start : Int) (n : Nat) : List Int :=
  (List.range n).map (fun i : Nat => start + (i : Int))

/-! ## Span-lifecycle command semantics — the client-facing API with
Rust's ownership made explicit: a created span is held by the caller under
a handle and every public `&mut self` method of `Span` — `add_tag`,
`add_log`, and crucially the public `close` (also reachable through
`finalize_span_for_test`, whose body is just `span.close()`) — remains
available on it; only `finalize` moves the span into the context via the
ownership transfer of `finalize_span(self, span: Box<Span>)`, after which
no command can reach it any more. -/

/-- A client command against a tracing context and its caller-held spans.
`closeSpan` is the direct call of the public `Span::close` (equivalently
`TracingContext::finalize_span_for_test`): it closes the span in place
while the caller keeps holding it. -/
inductive Cmd where
  | createEntry (operation_name : Bytes) (now : Int)
  | createExit (operation_name remote_peer : Bytes) (now : Int)
  | addTag (handle : Nat) (key value : Bytes)
  | addLog (handle : Nat) (message : List (Bytes × Bytes)) (now : Int)
  | closeSpan (handle : Nat) (now : Int)
  | finalize (handle : Nat) (now : Int)
deriving DecidableEq, Repr

/-- Context plus the caller-held spans, each under a unique handle. -/
structure LifecycleState where
  ctx : TracingContext
  held : List (Nat × Span)
  fresh : Nat
deriving DecidableEq, Repr

/-- Initial state for a context with no caller-held spans. -/
def initLifecycle (ctx : TracingContext) : LifecycleState :=
  ⟨ctx, [], 0⟩

/-- One client command.  Creation hands the new span to the caller;
`addTag` / `addLog` / `closeSpan` mutate a caller-held span in place
(the source never guards them on the span being open, so they apply to
closed spans just as well); `finalize` closes the addressed span and
moves it into the context's finalized list; a command addressing a handle
the caller no longer owns does nothing (in Rust it would not compile). -/
def stepCmd (st : LifecycleState) : Cmd → LifecycleState
  | .createEntry name now =>
    match st.ctx.create_entry_span name now with
    | (.ok sp, c) => ⟨c, st.held ++ [(st.fresh, sp)], st.fresh + 1⟩
    | (.error _, c) => ⟨c, st.held, st.fresh⟩
  | .createExit name peer now =>
    match st.ctx.create_exit_span name peer now with
    | (.ok sp, c) => ⟨c, st.held ++ [(st.fresh, sp)], st.fresh + 1⟩
    | (.error _, c) => ⟨c, st.held, st.fresh⟩
  | .addTag h k v =>
    ⟨st.ctx, st.held.map (fun p => if p.1 = h then (p.1, p.2.add_tag (k, v)) else p),
      st.fresh⟩
  | .addLog h msg now =>
    ⟨st.ctx, st.held.map (fun p => if p.1 = h then (p.1, p.2.add_log msg now) else p),
      st.fresh⟩
  | .closeSpan h now =>
    ⟨st.ctx, st.held.map (fun p => if p.1 = h then (p.1, p.2.close now) else p),
      st.fresh⟩
  | .finalize h now =>
    match st.held.find? (fun p => p.1 == h) with
    | some p => ⟨st.ctx.finalize_span p.2 now, st.held.filter (fun q => ¬q.1 = h), st.fresh⟩
    | none => st

/-- Run a list of client commands. -/
def execCmds (st : LifecycleState) (cmds : List Cmd) : LifecycleState :=
  cmds.foldl stepCmd st

/-! ## Reporter (`src/reporter/grpc.rs`) — the bounded tokio mpsc channel
(capacity 32) and the single drain task, as a transition system whose
steps are the channel's atomic operations; an interleaving of concurrent
submitters is a path of the system. -/

/-- Queue contents, records delivered to the collector sink, and the
submission history, in order. -/
structure ReporterState where
  queue : List SegmentObject
  sink : List SegmentObject
  submitted : List SegmentObject
deriving DecidableEq, Repr

/-- Atomic reporter events: a producer's `tx.send` enqueues (subject to
the capacity-32 bound), the drain task's `rx.recv` + `flush` delivers the
head of the queue to the sink. -/
inductive ReporterStep : ReporterState → ReporterState → Prop
  | submit (s : ReporterState) (seg : SegmentObject) (h : s.queue.length < 32) :
      ReporterStep s ⟨s.queue ++ [seg], s.sink, s.submitted ++ [seg]⟩
  | drain (s : ReporterState) (seg : SegmentObject) (rest : List SegmentObject)
      (h : s.queue = seg :: rest) :
      ReporterStep s ⟨rest, s.sink ++ [seg], s.submitted⟩

/-- The reporter starts with an empty channel and nothing delivered. -/
def reporterInit : ReporterState :=
  ⟨[], [], []⟩

/-- A state the reporter can reach by some interleaving of submissions and
drains. -/
def ReporterReachable (s : ReporterState) : Prop :=
  Relation.ReflTransGen ReporterStep reporterInit s

/-! ## Helper characterizations of the span-creation operations. -/

theorem create_entry_ok_elim (ctx : TracingContext) (name : Bytes) (now : Int)
    (sp : Span) (ctx2 : TracingContext)
    (h : ctx.create_entry_span name now = (.ok sp, ctx2)) :
    sp.span_internal.span_id = ctx.next_span_id + 1 ∧
    sp.span_internal.parent_span_id = ctx.next_span_id ∧
    ctx2 = { ctx with next_span_id := ctx.next_span_id + 1 } ∧
    ¬ 1 ≤ ctx.next_span_id := by
  cases hseg : ctx.segment_link with
  | none =>
    unfold TracingContext.create_entry_span at h
    rw [hseg] at h
    split at h
    · injection h with h1 h2
      injection h1
    · injection h with h1 h2
      injection h1 with h1
      subst h1
      refine ⟨by simp [Span.new], by simp [Span.new], h2.symm, by assumption⟩
  | some link =>
    unfold TracingContext.create_entry_span at h
    rw [hseg] at h
    split at h
    · injection h with h1 h2
      injection h1
    · injection h with h1 h2
      injection h1 with h1
      subst h1
      refine ⟨by simp [Span.new, Span.add_segment_reference],
        by simp [Span.new, Span.add_segment_reference], h2.symm, by assumption⟩

theorem create_entry_ok_refs (ctx : TracingContext) (name : Bytes) (now : Int)
    (sp : Span) (ctx2 : TracingContext)
    (h : ctx.create_entry_span name now = (.ok sp, ctx2)) :
    sp.span_internal.refs =
      match ctx.segment_link with
      | some link =>
        [{ ref_type := refTypeCrossProcess
           trace_id := ctx.trace_id
           parent_trace_segment_id := link.parent_trace_segment_id
           parent_span_id := link.parent_span_id
           parent_service := link.parent_service
           parent_service_instance := link.parent_service_instance
           parent_endpoint := link.destination_endpoint
           network_address_used_at_peer := link.destination_address }]
      | none => [] := by
  cases hseg : ctx.segment_link with
  | none =>
    unfold TracingContext.create_entry_span at h
    rw [hseg] at h
    split at h
    · injection h with h1 h2
      injection h1
    · injection h with h1 h2
      injection h1 with h1
      subst h1
      simp [Span.new]
  | some link =>
    unfold TracingContext.create_entry_span at h
    rw [hseg] at h
    split at h
    · injection h with h1 h2
      injection h1
    · injection h with h1 h2
      injection h1 with h1
      subst h1
      simp [Span.new, Span.add_segment_reference]

theorem create_exit_ok_elim (ctx : TracingContext) (name peer : Bytes) (now : Int)
    (sp : Span) (ctx2 : TracingContext)
    (h : ctx.create_exit_span name peer now = (.ok sp, ctx2)) :
    sp = Span.new ctx.next_span_id name peer spanTypeExit spanLayerHttp false now ∧
    ctx2 = { ctx with next_span_id := ctx.next_span_id + 1 } ∧
    ctx.next_span_id ≠ 0 := by
  unfold TracingContext.create_exit_span at h
  split at h
  · injection h with h1 h2
    injection h1
  · injection h with h1 h2
    injection h1 with h1
    exact ⟨h1.symm, h2.symm, by assumption⟩

theorem create_entry_spans_unchanged (ctx : TracingContext) (name : Bytes) (now : Int) :
    ((ctx.create_entry_span name now).2).spans = ctx.spans := by
  unfold TracingContext.create_entry_span
  split
  · rfl
  · rfl

theorem create_exit_spans_unchanged (ctx : TracingContext) (name peer : Bytes) (now : Int) :
    ((ctx.create_exit_span name peer now).2).spans = ctx.spans := by
  unfold TracingContext.create_exit_span
  split
  · rfl
  · rfl

/-! ## Claims C4, C10, C8, C6, C5. -/

/-- C4: on every `TracingContext`, `create_entry_span` returns an error
exactly when an entry span has already been created on that context
(`next_span_id >= 1`) — whether or not the first span was finalized plays
no role, the guard reads only the counter — and `create_exit_span` returns
an error exactly when no entry span has been created yet
(`next_span_id == 0`); otherwise each succeeds. -/
theorem claim4_creation_guards (ctx : TracingContext) (name peer : Bytes) (now : Int) :
    (isErrE (ctx.create_entry_span name now).1 = true ↔ 1 ≤ ctx.next_span_id) ∧
    (isErrE (ctx.create_exit_span name peer now).1 = true ↔ ctx.next_span_id = 0) := by
  constructor
  · unfold TracingContext.create_entry_span
    split
    · simp [isErrE]
      omega
    · simp [isErrE]
      omega
  · unfold TracingContext.create_exit_span
    split
    · simp [isErrE]
      omega
    · simp [isErrE]
      omega

/-- Witness for C4: on a context whose counter already reached 1, a second
entry span is refused. -/
theorem claim4_creation_guards_witness :
    isErrE (((⟨[116], [115], [115], [105], 1, [], none⟩ : TracingContext).create_entry_span
      [111] 5).1) = true :=
  (claim4_creation_guards ⟨[116], [115], [115], [105], 1, [], none⟩ [111] [112] 5).1.mpr
    (by decide)

/-- C10: whenever `create_entry_span` or `create_exit_span` returns an
error, the `TracingContext` is left completely unchanged (the guard is
checked before any mutation; the failed operation is atomic). -/
theorem claim10_error_atomicity (ctx : TracingContext) (name peer : Bytes) (now : Int) :
    (isErrE (ctx.create_entry_span name now).1 = true →
      (ctx.create_entry_span name now).2 = ctx) ∧
    (isErrE (ctx.create_exit_span name peer now).1 = true →
      (ctx.create_exit_span name peer now).2 = ctx) := by
  constructor
  · unfold TracingContext.create_entry_span
    split
    · intro _; rfl
    · intro hc; simp [isErrE] at hc
  · unfold TracingContext.create_exit_span
    split
    · intro _; rfl
    · intro hc; simp [isErrE] at hc

/-- Witness for C10: a fresh context refuses an exit span and is returned
unchanged. -/
theorem claim10_error_atomicity_witness :
    ((TracingContext.default [116] [115] [115] [105]).create_exit_span [111] [112] 5).2 =
      TracingContext.default [116] [115] [115] [105] :=
  (claim10_error_atomicity (TracingContext.default [116] [115] [115] [105]) [111] [112] 5).2
    (by decide)

/-- C8: a context built `from_propagation_context` has `trace_id` copied
from the propagated context, the freshly generated segment id it was
given, service and instance copied from the parent identity,
`next_span_id = 0`, no finalized spans, and the propagation context stored
as its segment link; a context built with `default` starts with the two
freshly generated ids it was given, `next_span_id = 0`, no finalized
spans, and no segment link. -/
theorem claim8_constructors :
    (∀ (generated_segment_id : Bytes) (p : PropagationContext),
      TracingContext.from_propagation_context generated_segment_id p =
        ⟨p.parent_trace_id, generated_segment_id, p.parent_service,
          p.parent_service_instance, 0, [], some p⟩) ∧
    (∀ generated_trace_id generated_segment_id service_name instance_name : Bytes,
      TracingContext.default generated_trace_id generated_segment_id service_name
          instance_name =
        ⟨generated_trace_id, generated_segment_id, service_name, instance_name,
          0, [], none⟩) :=
  ⟨fun _ _ => rfl, fun _ _ _ _ => rfl⟩

/-- C6: `convert_segment_object` is a pure function of the context — in
this embedding it is a plain function, so calling it any number of times
always returns the same record for the same state — and that record
carries the context's trace id, segment id, service and instance, the
size-limited flag `false`, and exactly the images of the finalized spans
in finalize order: `finalize_span` appends to the finalized list, while
span creation never touches it, so a created-but-unfinalized span never
appears in the segment. -/
theorem claim6_segment_assembly :
    (∀ ctx : TracingContext,
      ctx.convert_segment_object =
        ⟨ctx.trace_id, ctx.trace_segment_id, ctx.spans.map Span.span_internal,
          ctx.service, ctx.service_instance, false⟩) ∧
    (∀ (ctx : TracingContext) (sp : Span) (now : Int),
      (ctx.finalize_span sp now).spans = ctx.spans ++ [sp.close now]) ∧
    (∀ (ctx : TracingContext) (name : Bytes) (now : Int),
      ((ctx.create_entry_span name now).2).spans = ctx.spans) ∧
    (∀ (ctx : TracingContext) (name peer : Bytes) (now : Int),
      ((ctx.create_exit_span name peer now).2).spans = ctx.spans) :=
  ⟨fun _ => rfl, fun _ _ _ => rfl,
    fun ctx name now => create_entry_spans_unchanged ctx name now,
    fun ctx name peer now => create_exit_spans_unchanged ctx name peer now⟩

/-- C5: an entry span successfully created on a context built from a
propagation context carries exactly one `SegmentReference`, whose trace id
is the context's trace id (the propagated parent trace id) and whose
remaining fields are copied from the propagation context; an entry span on
a context built without a propagation context carries no references; and
exit spans never carry references. -/
theorem claim5_segment_references :
    (∀ (generated_segment_id : Bytes) (p : PropagationContext) (name : Bytes) (now : Int)
      (sp : Span) (ctx2 : TracingContext),
      (TracingContext.from_propagation_context generated_segment_id p).create_entry_span
          name now = (.ok sp, ctx2) →
      sp.span_internal.refs =
        [{ ref_type := refTypeCrossProcess
           trace_id := (TracingContext.from_propagation_context generated_segment_id
             p).trace_id
           parent_trace_segment_id := p.parent_trace_segment_id
           parent_span_id := p.parent_span_id
           parent_service := p.parent_service
           parent_service_instance := p.parent_service_instance
           parent_endpoint := p.destination_endpoint
           network_address_used_at_peer := p.destination_address }]) ∧
    (∀ (gt gs sn inm name : Bytes) (now : Int) (sp : Span) (ctx2 : TracingContext),
      (TracingContext.default gt gs sn inm).create_entry_span name now = (.ok sp, ctx2) →
      sp.span_internal.refs = []) ∧
    (∀ (ctx : TracingContext) (name peer : Bytes) (now : Int) (sp : Span)
      (ctx2 : TracingContext),
      ctx.create_exit_span name peer now = (.ok sp, ctx2) →
      sp.span_internal.refs = []) := by
  refine ⟨?_, ?_, ?_⟩
  · intro gsid p name now sp ctx2 h
    have := create_entry_ok_refs _ name now sp ctx2 h
    simpa [TracingContext.from_propagation_context] using this
  · intro gt gs sn inm name now sp ctx2 h
    have := create_entry_ok_refs _ name now sp ctx2 h
    simpa [TracingContext.default] using this
  · intro ctx name peer now sp ctx2 h
    obtain ⟨hsp, -, -⟩ := create_exit_ok_elim ctx name peer now sp ctx2 h
    subst hsp
    simp [Span.new]

/-- A concrete propagated context used by the C5 witness. -/
def w5prop : PropagationContext :=
  ⟨true, [49], [53], 3, [109], [105], [101], [97]⟩

/-- The entry span the C5 witness context produces. -/
def w5span : Span :=
  (Span.new 0 [111] [] spanTypeEntry spanLayerHttp false 100).add_segment_reference
    ⟨refTypeCrossProcess, [49], [53], 3, [109], [105], [101], [97]⟩

/-- The C5 witness context after the creation. -/
def w5ctx : TracingContext :=
  ⟨[49], [115], [109], [105], 1, [], some w5prop⟩

/-- Witness for C5: the reference attached to the entry span of a context
continuing a concrete propagated trace. -/
theorem claim5_segment_references_witness :
    (TracingContext.from_propagation_context [115] w5prop).create_entry_span [111] 100 =
      (.ok w5span, w5ctx) ∧
    w5span.span_internal.refs =
      [⟨refTypeCrossProcess, [49], [53], 3, [109], [105], [101], [97]⟩] :=
  ⟨by rfl, claim5_segment_references.1 [115] w5prop [111] 100 w5span w5ctx (by rfl)⟩

/-! ## Claim C1 — span id assignment. -/

theorem consecutiveFrom_succ (start : Int) (n : Nat) :
    consecutiveFrom start (n + 1) = start :: consecutiveFrom (start + 1) n := by
  unfold consecutiveFrom
  rw [List.range_succ_eq_map, List.map_cons, List.map_map]
  simp only [Nat.cast_zero, add_zero]
  congr 1
  apply List.map_congr_left
  intro i _
  simp only [Function.comp_apply]
  push_cast
  ring

theorem runCreates_spec (ops : List CreateOp) : ∀ ctx : TracingContext,
    ((runCreates ctx ops).2).map SpanObject.span_id =
      consecutiveFrom (ctx.next_span_id + 1) ((runCreates ctx ops).2).length ∧
    (runCreates ctx ops).1.next_span_id =
      ctx.next_span_id + ((runCreates ctx ops).2).length := by
  induction ops with
  | nil =>
    intro ctx
    simp [runCreates, consecutiveFrom]
  | cons op rest ih =>
    intro ctx
    match op with
    | .entrySpan name now =>
      match hc : ctx.create_entry_span name now with
      | (.ok sp, c) =>
        obtain ⟨hid, hpar, hctx, hguard⟩ := create_entry_ok_elim ctx name now sp c hc
        have hnext : c.next_span_id = ctx.next_span_id + 1 := by rw [hctx]
        obtain ⟨ihids, ihnext⟩ := ih c
        simp only [runCreates, hc]
        constructor
        · simp only [List.map_append, List.map_cons, List.map_nil, List.singleton_append,
            List.length_append, List.length_cons, List.length_nil]
          rw [hid, ihids, hnext, consecutiveFrom_succ]
        · simp only [List.length_append, List.length_cons, List.length_nil,
            List.singleton_append]
          omega
      | (.error e, c) =>
        have hc2 : c = ctx := by
          unfold TracingContext.create_entry_span at hc
          split at hc
          · injection hc with h1 h2
            exact h2.symm
          · injection hc with h1 h2
            injection h1
        subst hc2
        obtain ⟨ihids, ihnext⟩ := ih c
        simp only [runCreates, hc, List.nil_append]
        exact ⟨ihids, ihnext⟩
    | .exitSpan name peer now =>
      match hc : ctx.create_exit_span name peer now with
      | (.ok sp, c) =>
        obtain ⟨hsp, hctx, hguard⟩ := create_exit_ok_elim ctx name peer now sp c hc
        have hnext : c.next_span_id = ctx.next_span_id + 1 := by rw [hctx]
        have hid : sp.span_internal.span_id = ctx.next_span_id + 1 := by
          rw [hsp]; simp [Span.new]
        obtain ⟨ihids, ihnext⟩ := ih c
        simp only [runCreates, hc]
        constructor
        · simp only [List.map_append, List.map_cons, List.map_nil, List.singleton_append,
            List.length_append, List.length_cons, List.length_nil]
          rw [hid, ihids, hnext, consecutiveFrom_succ]
        · simp only [List.length_append, List.length_cons, List.length_nil,
            List.singleton_append]
          omega
      | (.error e, c) =>
        have hc2 : c = ctx := by
          unfold TracingContext.create_exit_span at hc
          split at hc
          · injection hc with h1 h2
            exact h2.symm
          · injection hc with h1 h2
            injection h1
        subst hc2
        obtain ⟨ihids, ihnext⟩ := ih c
        simp only [runCreates, hc, List.nil_append]
        exact ⟨ihids, ihnext⟩

/-- Counterexample to C1 as stated: on a freshly constructed context
(`next_span_id = 0`) the first successful entry span has `span_id = 1` and
`parent_span_id = 0`, not `span_id = 0` and `parent_span_id = -1` as the
claim requires (`Span::new` stores `parent_span_id + 1` as the span id and
receives `next_span_id` as the parent id). -/
theorem claim1_counterexample :
    ((TracingContext.default [116] [115] [115] [105]).create_entry_span [111]
        100).1.toOption.map (fun sp => sp.span_internal.span_id) = some 1 ∧
    ((TracingContext.default [116] [115] [115] [105]).create_entry_span [111]
        100).1.toOption.map (fun sp => sp.span_internal.parent_span_id) = some 0 ∧
    (TracingContext.default [116] [115] [115] [105]).next_span_id = 0 ∧
    (1 : Int) ≠ 0 ∧ (0 : Int) ≠ -1 := by
  refine ⟨by rfl, by rfl, by rfl, by decide, by decide⟩

/-- C1 as amended: a successful `create_entry_span` returns a span with
`span_id = next_span_id + 1` and `parent_span_id = next_span_id` (so the
very first span has span id 1 and parent span id 0), each successful
`create_exit_span` allocates the next consecutive pair the same way, and
over any sequence of successful creations on a fresh context the assigned
span ids form the strictly increasing, gap-free sequence 1, 2, 3, …
regardless of span kind. -/
theorem claim1_span_id_assignment :
    (∀ (ctx : TracingContext) (name : Bytes) (now : Int) (sp : Span)
      (ctx2 : TracingContext),
      ctx.create_entry_span name now = (.ok sp, ctx2) →
      sp.span_internal.span_id = ctx.next_span_id + 1 ∧
      sp.span_internal.parent_span_id = ctx.next_span_id ∧
      ctx2.next_span_id = ctx.next_span_id + 1) ∧
    (∀ (ctx : TracingContext) (name peer : Bytes) (now : Int) (sp : Span)
      (ctx2 : TracingContext),
      ctx.create_exit_span name peer now = (.ok sp, ctx2) →
      sp.span_internal.span_id = ctx.next_span_id + 1 ∧
      sp.span_internal.parent_span_id = ctx.next_span_id ∧
      ctx2.next_span_id = ctx.next_span_id + 1) ∧
    (∀ (ctx : TracingContext) (ops : List CreateOp),
      ctx.next_span_id = 0 →
      ((runCreates ctx ops).2).map SpanObject.span_id =
        consecutiveFrom 1 ((runCreates ctx ops).2).length) := by
  refine ⟨?_, ?_, ?_⟩
  · intro ctx name now sp ctx2 h
    obtain ⟨hid, hpar, hctx, -⟩ := create_entry_ok_elim ctx name now sp ctx2 h
    exact ⟨hid, hpar, by rw [hctx]⟩
  · intro ctx name peer now sp ctx2 h
    obtain ⟨hsp, hctx, -⟩ := create_exit_ok_elim ctx name peer now sp ctx2 h
    subst hsp
    exact ⟨by simp [Span.new], by simp [Span.new], by rw [hctx]⟩
  · intro ctx ops h0
    have := (runCreates_spec ops ctx).1
    rw [h0] at this
    simpa using this

/-- Witness for C1 (amended): a concrete entry-then-exit sequence on a
fresh context assigns span ids 1 and 2. -/
theorem claim1_span_id_assignment_witness :
    ((runCreates (TracingContext.default [116] [115] [115] [105])
        [.entrySpan [111] 100, .exitSpan [112] [113] 100]).2).map SpanObject.span_id =
      consecutiveFrom 1 2 :=
  claim1_span_id_assignment.2.2 (TracingContext.default [116] [115] [115] [105])
    [.entrySpan [111] 100, .exitSpan [112] [113] 100] (by rfl)

/-! ## Claim C7 — closing a span, and what the source does and does not
prevent afterwards. -/

theorem create_entry_ok_end_time (ctx : TracingContext) (name : Bytes) (now : Int)
    (sp : Span) (ctx2 : TracingContext)
    (h : ctx.create_entry_span name now = (.ok sp, ctx2)) :
    sp.span_internal.end_time = 0 := by
  cases hseg : ctx.segment_link with
  | none =>
    unfold TracingContext.create_entry_span at h
    rw [hseg] at h
    split at h
    · injection h with h1 h2
      injection h1
    · injection h with h1 h2
      injection h1 with h1
      subst h1
      simp [Span.new]
  | some link =>
    unfold TracingContext.create_entry_span at h
    rw [hseg] at h
    split at h
    · injection h with h1 h2
      injection h1
    · injection h with h1 h2
      injection h1 with h1
      subst h1
      simp [Span.new, Span.add_segment_reference]

theorem stepCmd_spans_extend (st : LifecycleState) (cmd : Cmd) :
    ∃ t, (stepCmd st cmd).ctx.spans = st.ctx.spans ++ t := by
  match cmd with
  | .createEntry name now =>
    match hc : st.ctx.create_entry_span name now with
    | (.ok sp, c) =>
      refine ⟨[], ?_⟩
      have := create_entry_spans_unchanged st.ctx name now
      rw [hc] at this
      simpa [stepCmd, hc] using this
    | (.error e, c) =>
      refine ⟨[], ?_⟩
      have := create_entry_spans_unchanged st.ctx name now
      rw [hc] at this
      simpa [stepCmd, hc] using this
  | .createExit name peer now =>
    match hc : st.ctx.create_exit_span name peer now with
    | (.ok sp, c) =>
      refine ⟨[], ?_⟩
      have := create_exit_spans_unchanged st.ctx name peer now
      rw [hc] at this
      simpa [stepCmd, hc] using this
    | (.error e, c) =>
      refine ⟨[], ?_⟩
      have := create_exit_spans_unchanged st.ctx name peer now
      rw [hc] at this
      simpa [stepCmd, hc] using this
  | .addTag hd k v => exact ⟨[], by simp [stepCmd]⟩
  | .addLog hd msg now => exact ⟨[], by simp [stepCmd]⟩
  | .closeSpan hd now => exact ⟨[], by simp [stepCmd]⟩
  | .finalize hd now =>
    match hf : st.held.find? (fun p => p.1 == hd) with
    | some q =>
      refine ⟨[q.2.close now], ?_⟩
      simp [stepCmd, hf, TracingContext.finalize_span]
    | none => exact ⟨[], by simp [stepCmd, hf]⟩

/-- The lifecycle state of the C7 counterexample after creating one entry
span and closing it directly through the public `Span::close`
(equivalently `finalize_span_for_test`): the span is closed yet still
caller-held. -/
def c7closed : LifecycleState :=
  execCmds (initLifecycle (TracingContext.default [116] [115] [115] [105]))
    [.createEntry [111] 100, .closeSpan 0 200]

/-- The C7 counterexample state after one further `add_tag` on the closed
span. -/
def c7after : LifecycleState :=
  stepCmd c7closed (.addTag 0 [107] [118])

/-- Counterexample to C7 as stated: `Span::close` is a public `&mut self`
method, so a caller can close a span (here at time 200, leaving it
caller-held with `end_time = 200` and no tags) and then call `add_tag` on
it — and the implementation silently accepts the append (the tag list
grows while `end_time` stays 200).  A closed span is therefore not
immutable, and appending tags or logs after close is not prevented:
`add_tag` / `add_log` check nothing, and the ownership transfer happens
only on `finalize_span`, not on close. -/
theorem claim7_counterexample :
    c7closed.held.map (fun p => p.2.span_internal.end_time) = [200] ∧
    c7closed.held.map (fun p => p.2.span_internal.tags) = [[]] ∧
    c7after.held.map (fun p => p.2.span_internal.tags) = [[⟨[107], [118]⟩]] ∧
    c7after.held.map (fun p => p.2.span_internal.end_time) = [200] := by
  refine ⟨by decide, by decide, by decide, by decide⟩

/-- C7 as amended: for every span, `end_time` stays 0 until the span is
closed — a new span starts with `end_time = 0` and `add_tag` / `add_log`
never alter `end_time` — and closing sets `end_time` from the time
source.  But a closed span is not immutable through the public `Span`
API: `add_tag` and `add_log` after a direct `Span::close` are silently
accepted, appending exactly as they would on an open span.  Immutability
is only achieved by `finalize_span`'s ownership transfer: once a span is
finalized into the context, every client command leaves the finalized
list append-only, so no append can reach a finalized span. -/
theorem claim7_close_and_finalize :
    (∀ (parent_span_id : Int) (operation_name remote_peer : Bytes)
      (span_type span_layer : Int) (skip_analysis : Bool) (now : Int),
      (Span.new parent_span_id operation_name remote_peer span_type span_layer
        skip_analysis now).span_internal.end_time = 0) ∧
    (∀ (sp : Span) (tag : Bytes × Bytes),
      (sp.add_tag tag).span_internal.end_time = sp.span_internal.end_time) ∧
    (∀ (sp : Span) (msg : List (Bytes × Bytes)) (now : Int),
      (sp.add_log msg now).span_internal.end_time = sp.span_internal.end_time) ∧
    (∀ (sp : Span) (now : Int), (sp.close now).span_internal.end_time = now) ∧
    (∀ (sp : Span) (now : Int) (tag : Bytes × Bytes),
      ((sp.close now).add_tag tag).span_internal.tags =
        sp.span_internal.tags ++ [⟨tag.1, tag.2⟩] ∧
      ((sp.close now).add_tag tag).span_internal.end_time = now) ∧
    (∀ (sp : Span) (now : Int) (msg : List (Bytes × Bytes)) (now2 : Int),
      ((sp.close now).add_log msg now2).span_internal.logs =
        sp.span_internal.logs ++ [⟨now2, msg.map (fun v => ⟨v.1, v.2⟩)⟩]) ∧
    (∀ (st : LifecycleState) (cmd : Cmd),
      ∃ t, (stepCmd st cmd).ctx.spans = st.ctx.spans ++ t) := by
  refine ⟨?_, ?_, ?_, ?_, ?_, ?_, ?_⟩
  · intro parent name peer ty ly skip now
    simp [Span.new]
  · intro sp tag
    simp [Span.add_tag]
  · intro sp msg now
    simp [Span.add_log]
  · intro sp now
    simp [Span.close]
  · intro sp now tag
    exact ⟨by simp [Span.close, Span.add_tag], by simp [Span.close, Span.add_tag]⟩
  · intro sp now msg now2
    simp [Span.close, Span.add_log]
  · intro st cmd
    exact stepCmd_spans_extend st cmd

/-! ## Claim C9 — reporter delivery order. -/

/-- C9: in every reachable reporter state the delivered records followed
by the still-queued records are exactly the submitted records in
submission order — so once the queue is drained, the sink holds exactly
the N submitted records, in order, with no loss, duplication or
reordering, for any interleaving of concurrent submitters (each path of
the transition system is one interleaving of the channel's atomic
operations). -/
theorem claim9_reporter_order (s : ReporterState) (h : ReporterReachable s) :
    s.sink ++ s.queue = s.submitted ∧ (s.queue = [] → s.sink = s.submitted) := by
  have inv : s.sink ++ s.queue = s.submitted := by
    induction h with
    | refl => rfl
    | tail hsteps step ih =>
      cases step with
      | submit seg hcap =>
        simp only
        rw [← List.append_assoc, ih]
      | drain seg rest hq =>
        simp only
        rw [List.append_assoc, List.singleton_append, ← hq, ih]
  exact ⟨inv, fun hq => by simpa [hq] using inv⟩

/-- A concrete segment record for the C9 witness. -/
def w9seg : SegmentObject :=
  ⟨[116], [115], [], [115], [105], false⟩

/-- Witness for C9: submitting one segment and draining it delivers
exactly that segment. -/
theorem claim9_reporter_order_witness :
    (⟨[], [w9seg], [w9seg]⟩ : ReporterState).sink =
      (⟨[], [w9seg], [w9seg]⟩ : ReporterState).submitted :=
  (claim9_reporter_order ⟨[], [w9seg], [w9seg]⟩
    (Relation.ReflTransGen.tail
      (Relation.ReflTransGen.tail Relation.ReflTransGen.refl
        (ReporterStep.submit reporterInit w9seg (by simp [reporterInit])))
      (ReporterStep.drain ⟨[w9seg], [], [w9seg]⟩ w9seg [] rfl))).2 rfl

/-! ## Claim C2 — decoder error conditions. -/

theorem sample_status_err (p : Bytes) :
    isErrE (try_parse_sample_status p) = !(p == [48] || p == [49]) := by
  unfold try_parse_sample_status
  split_ifs with ha hb
  · simp [isErrE, ha]
  · simp [isErrE, ha, hb]
  · simp [isErrE, ha, hb]

theorem b64str_err (p : Bytes) :
    isErrE (b64_encoded_into_string p) = !b64TextOk p := by
  unfold b64_encoded_into_string b64TextOk
  cases hd : b64decode p with
  | none => simp [isErrE]
  | some bs =>
    cases hv : isValidUtf8 bs with
    | true => simp [hv, isErrE]
    | false => simp [hv, isErrE]

theorem span_id_err (p : Bytes) :
    isErrE (try_parse_parent_span_id p) = !(parseU32 p).isSome := by
  unfold try_parse_parent_span_id
  cases hp : parseU32 p with
  | none => simp [isErrE]
  | some v => simp [isErrE]

theorem decodeFields_err (p0 p1 p2 p3 p4 p5 p6 p7 : Bytes) :
    isErrE (decodeFields p0 p1 p2 p3 p4 p5 p6 p7) =
      claim2FieldsFail p0 p1 p2 p3 p4 p5 p6 p7 := by
  unfold decodeFields claim2FieldsFail
  cases e0 : try_parse_sample_status p0 with
  | error m =>
    have hs := sample_status_err p0
    rw [e0] at hs
    simp only [isErrE] at hs
    simp [isErrE, ← hs]
  | ok b0 =>
  have hs := sample_status_err p0
  rw [e0] at hs
  simp only [isErrE, Bool.not_eq_eq_eq_not, Bool.not_false] at hs
  cases e1 : b64_encoded_into_string p1 with
  | error m =>
    have hb := b64str_err p1
    rw [e1] at hb
    simp only [isErrE, Bool.not_eq_eq_eq_not, Bool.not_true] at hb
    simp [isErrE, ← hb]
  | ok t1 =>
  have hb1 := b64str_err p1
  rw [e1] at hb1
  simp only [isErrE, Bool.not_eq_eq_eq_not, Bool.not_false] at hb1
  cases e2 : b64_encoded_into_string p2 with
  | error m =>
    have hb := b64str_err p2
    rw [e2] at hb
    simp only [isErrE, Bool.not_eq_eq_eq_not, Bool.not_true] at hb
    simp [isErrE, ← hb]
  | ok t2 =>
  have hb2 := b64str_err p2
  rw [e2] at hb2
  simp only [isErrE, Bool.not_eq_eq_eq_not, Bool.not_false] at hb2
  cases e3 : try_parse_parent_span_id p3 with
  | error m =>
    have hp := span_id_err p3
    rw [e3] at hp
    simp only [isErrE, Bool.not_eq_eq_eq_not, Bool.not_true] at hp
    simp [isErrE, ← hp]
  | ok v3 =>
  have hp3 := span_id_err p3
  rw [e3] at hp3
  simp only [isErrE, Bool.not_eq_eq_eq_not, Bool.not_false] at hp3
  cases e4 : b64_encoded_into_string p4 with
  | error m =>
    have hb := b64str_err p4
    rw [e4] at hb
    simp only [isErrE, Bool.not_eq_eq_eq_not, Bool.not_true] at hb
    simp [isErrE, ← hb]
  | ok t4 =>
  have hb4 := b64str_err p4
  rw [e4] at hb4
  simp only [isErrE, Bool.not_eq_eq_eq_not, Bool.not_false] at hb4
  cases e5 : b64_encoded_into_string p5 with
  | error m =>
    have hb := b64str_err p5
    rw [e5] at hb
    simp only [isErrE, Bool.not_eq_eq_eq_not, Bool.not_true] at hb
    simp [isErrE, ← hb]
  | ok t5 =>
  have hb5 := b64str_err p5
  rw [e5] at hb5
  simp only [isErrE, Bool.not_eq_eq_eq_not, Bool.not_false] at hb5
  cases e6 : b64_encoded_into_string p6 with
  | error m =>
    have hb := b64str_err p6
    rw [e6] at hb
    simp only [isErrE, Bool.not_eq_eq_eq_not, Bool.not_true] at hb
    simp [isErrE, ← hb]
  | ok t6 =>
  have hb6 := b64str_err p6
  rw [e6] at hb6
  simp only [isErrE, Bool.not_eq_eq_eq_not, Bool.not_false] at hb6
  cases e7 : b64_encoded_into_string p7 with
  | error m =>
    have hb := b64str_err p7
    rw [e7] at hb
    simp only [isErrE, Bool.not_eq_eq_eq_not, Bool.not_true] at hb
    simp [isErrE, ← hb]
  | ok t7 =>
  have hb7 := b64str_err p7
  rw [e7] at hb7
  simp only [isErrE, Bool.not_eq_eq_eq_not, Bool.not_false] at hb7
  have hsx : (p0 == [48] || p0 == [49]) = true := by
    revert hs
    cases p0 == [48] || p0 == [49] <;> simp
  have h1x : b64TextOk p1 = true := by
    revert hb1
    cases b64TextOk p1 <;> simp
  have h2x : b64TextOk p2 = true := by
    revert hb2
    cases b64TextOk p2 <;> simp
  have h4x : b64TextOk p4 = true := by
    revert hb4
    cases b64TextOk p4 <;> simp
  have h5x : b64TextOk p5 = true := by
    revert hb5
    cases b64TextOk p5 <;> simp
  have h6x : b64TextOk p6 = true := by
    revert hb6
    cases b64TextOk p6 <;> simp
  have h7x : b64TextOk p7 = true := by
    revert hb7
    cases b64TextOk p7 <;> simp
  have h3x : (parseU32 p3).isSome = true := by
    revert hp3
    cases (parseU32 p3).isSome <;> simp
  cases hpp : parseU32 p3 with
  | none =>
    rw [hpp] at h3x
    simp at h3x
  | some v =>
    simp [isErrE, hpp, hsx, h1x, h2x, h4x, h5x, h6x, h7x]

/-- C2 (amended): `decode` is a total function (it never panics) that on
error returns no context at all, and it returns an error exactly when the
input does not split on `'-'` into exactly 8 fields, or field 0 is not
exactly `"0"` or `"1"`, or field 3 does not parse as a non-negative
integer that fits in 32 bits (the source uses `str::parse::<u32>()`), or
one of fields 1, 2, 4, 5, 6, 7 is not valid base64 whose decoded bytes
are valid UTF-8 text; otherwise it succeeds. -/
theorem claim2_decode_error_conditions (header : Bytes) :
    isErrE (decode header) = claim2FailCondAmended header := by
  unfold decode claim2FailCondAmended
  generalize splitDash header = ps
  rcases ps with _ | ⟨p0, _ | ⟨p1, _ | ⟨p2, _ | ⟨p3, _ | ⟨p4, _ | ⟨p5, _ | ⟨p6, _ |
    ⟨p7, _ | ⟨p8, ps9⟩⟩⟩⟩⟩⟩⟩⟩⟩
  all_goals first
    | rfl
    | exact decodeFields_err p0 p1 p2 p3 p4 p5 p6 p7

/-- Counterexample to C2 as stated: the header
`"0-MQ==-MQ==-4294967296-MQ==-MQ==-MQ==-MQ=="` (given below as its byte
values) splits into 8 fields, has a valid sample flag, valid base64 UTF-8
text in fields 1, 2, 4, 5, 6, 7, and a field 3 that is a decimal
non-negative integer numeral — so the claim's failure condition, read
literally, is false — yet `decode` returns an error, because
`4294967296 = 2^32` does not fit in the `u32` the source parses into. -/
theorem claim2_counterexample :
    claim2FailCondLiteral
      [48, 45, 77, 81, 61, 61, 45, 77, 81, 61, 61, 45, 52, 50, 57, 52, 57, 54, 55, 50,
        57, 54, 45, 77, 81, 61, 61, 45, 77, 81, 61, 61, 45, 77, 81, 61, 61, 45, 77, 81,
        61, 61] = false ∧
    isErrE (decode
      [48, 45, 77, 81, 61, 61, 45, 77, 81, 61, 61, 45, 52, 50, 57, 52, 57, 54, 55, 50,
        57, 54, 45, 77, 81, 61, 61, 45, 77, 81, 61, 61, 45, 77, 81, 61, 61, 45, 77, 81,
        61, 61]) = true := by
  constructor
  · decide
  · decide

/-! ## Claim C3 — encode/decode round trip. -/

theorem b64str_roundtrip (l : Bytes) (h : ByteText l) :
    b64_encoded_into_string (b64encode l) = .ok l := by
  unfold b64_encoded_into_string
  rw [b64_roundtrip l h.1]
  simp [h.2]

/-- C3: encoding a propagation header from a sample flag, trace id,
segment id, span id (any value a `u32` can carry) and UTF-8 service,
instance, endpoint and address strings, then decoding the resulting
header string, reproduces the original field values exactly. -/
theorem claim3_encode_decode_roundtrip (sampled : Bool)
    (trace_id segment_id service service_instance endpoint address : Bytes)
    (span_id : Nat)
    (h1 : ByteText trace_id) (h2 : ByteText segment_id) (h3 : ByteText service)
    (h4 : ByteText service_instance) (h5 : ByteText endpoint) (h6 : ByteText address)
    (h7 : span_id < 4294967296) :
    decode (encode_propagation sampled trace_id segment_id span_id service
        service_instance endpoint address) =
      .ok ⟨sampled, trace_id, segment_id, span_id, service, service_instance,
        endpoint, address⟩ := by
  have hsflag : 45 ∉ (if sampled then ([49] : List Nat) else [48]) := by
    cases sampled <;> simp
  have hsplit : splitDash (encode_propagation sampled trace_id segment_id span_id
      service service_instance endpoint address) =
      [(if sampled then [49] else [48]), b64encode trace_id, b64encode segment_id,
        natToDec span_id, b64encode service, b64encode service_instance,
        b64encode endpoint, b64encode address] := by
    unfold encode_propagation
    rw [splitDash_append _ _ hsflag,
      splitDash_append _ _ (b64encode_no_dash trace_id),
      splitDash_append _ _ (b64encode_no_dash segment_id),
      splitDash_append _ _ (natToDec_no_dash span_id),
      splitDash_append _ _ (b64encode_no_dash service),
      splitDash_append _ _ (b64encode_no_dash service_instance),
      splitDash_append _ _ (b64encode_no_dash endpoint),
      splitDash_no_dash _ (b64encode_no_dash address)]
  have e0 : try_parse_sample_status (if sampled then [49] else [48]) = .ok sampled := by
    cases sampled
    · rfl
    · rfl
  have espid : try_parse_parent_span_id (natToDec span_id) = .ok span_id := by
    unfold try_parse_parent_span_id
    rw [parseU32_natToDec span_id h7]
  unfold decode
  rw [hsplit]
  show decodeFields (if sampled = true then [49] else [48]) (b64encode trace_id)
      (b64encode segment_id) (natToDec span_id) (b64encode service)
      (b64encode service_instance) (b64encode endpoint) (b64encode address) =
    Except.ok ⟨sampled, trace_id, segment_id, span_id, service, service_instance,
      endpoint, address⟩
  unfold decodeFields
  simp only [e0, espid, b64str_roundtrip trace_id h1, b64str_roundtrip segment_id h2,
    b64str_roundtrip service h3, b64str_roundtrip service_instance h4,
    b64str_roundtrip endpoint h5, b64str_roundtrip address h6]

/-- Witness for C3: a concrete round trip — sample flag `true`, trace id
`"1"`, segment id `"5"`, span id `3`, service `"mesh"`, instance `"inst"`,
endpoint `"end"`, address `"addr"`. -/
theorem claim3_encode_decode_roundtrip_witness :
    decode (encode_propagation true [49] [53] 3 [109, 101, 115, 104]
        [105, 110, 115, 116] [101, 110, 100] [97, 100, 100, 114]) =
      .ok ⟨true, [49], [53], 3, [109, 101, 115, 104], [105, 110, 115, 116],
        [101, 110, 100], [97, 100, 100, 114]⟩ :=
  claim3_encode_decode_roundtrip true [49] [53] [109, 101, 115, 104]
    [105, 110, 115, 116] [101, 110, 100] [97, 100, 100, 114] 3
    (by decide) (by decide) (by decide) (by decide) (by decide) (by decide) (by decide)

end Rs2sky
